import Mathlib

/-!
Verification of `scripts/embed_builtins.py`, a build-time generator that
embeds `.sl`/`.swz` library files into a generated C++ source containing a
static `unordered_map<string,string>`.

Strings are modelled as `List Char`.  Python's `str.replace` with a
single-character pattern is a character-wise flat map, `sorted` over paths is
a stable sort by the lexicographic order on path strings, and exceptions are
modelled with `Option`/`Except`.
-/

namespace EmbedBuiltins

/-- One pass of Python's `s.replace(a, b)` where the pattern `a` is a single
character: every occurrence of `a` is replaced by the string `b`. -/
def repl (a : Char) (b : List Char) (s : List Char) : List Char :=
  s.flatMap fun c => if c = a then b else [c]

/-- `cpp_escape` from the source (lines 39-46): escape backslashes, then
quotes, strip carriage returns, and replace each newline by the five
characters backslash, `n`, quote, newline, quote (closing the current C++
string literal fragment and reopening a new one on the next line). -/
def cpp_escape (s : List Char) : List Char :=
  repl '\n' ['\\', 'n', '"', '\n', '"']
    (repl '\r' []
      (repl '"' ['\\', '"']
        (repl '\\' ['\\', '\\'] s)))

/-- The image of a single character under the four sequential replacement
passes of `cpp_escape`. -/
def escChar (c : Char) : List Char :=
  if c = '\\' then ['\\', '\\']
  else if c = '"' then ['\\', '"']
  else if c = '\r' then []
  else if c = '\n' then ['\\', 'n', '"', '\n', '"']
  else [c]

/-- Decoder implementing the host (C++) string-literal rules named by the
spec: `\\` decodes to a backslash, `\"` to a double quote, `\n` to a line
feed, and the close/reopen sequence quote-newline-quote between adjacent
literal fragments is dropped (compile-time concatenation).  All other
characters stand for themselves. -/
def decodeLit : List Char → List Char
  | [] => []
  | '\\' :: '\\' :: r => '\\' :: decodeLit r
  | '\\' :: '"' :: r => '"' :: decodeLit r
  | '\\' :: 'n' :: r => '\n' :: decodeLit r
  | '"' :: '\n' :: '"' :: r => decodeLit r
  | c :: r => c :: decodeLit r

/-- The recognized primary extension `".sl"`. -/
def slExt : List Char := String.toList ".sl"

/-- The recognized secondary extension `".swz"`. -/
def swzExt : List Char := String.toList ".swz"

/-- The namespace tag `"swazi:"` prefixed to the extension-stripped alias. -/
def swaziTag : List Char := String.toList "swazi:"

/-- The final path component (Python `Path.name`): the characters after the
last `'/'`. -/
def pathName (p : List Char) : List Char :=
  (p.reverse.takeWhile (fun c => c != '/')).reverse

/-- Index of the last `'.'` in a string (Python `str.rfind`), `none` when
absent. -/
def rfindDot (l : List Char) : Option Nat :=
  match l.reverse.findIdx? (fun c => c == '.') with
  | none => none
  | some j => some (l.length - 1 - j)

/-- Python `Path.suffix`: the final component's last dot-suffix, empty when
the last dot is the first or last character of the name. -/
def pathSuffix (p : List Char) : List Char :=
  let n := pathName p
  match rfindDot n with
  | none => []
  | some i => if 0 < i ∧ i < n.length - 1 then n.drop i else []

/-- Python `rel.rsplit('.', 1)[0]`: everything before the last dot, or the
whole string when it has no dot. -/
def noext (rel : List Char) : List Char :=
  match rfindDot rel with
  | none => rel
  | some i => rel.take i

/-- Abstract view of the input tree handed to `collect_files`: whether the
root exists, the relative POSIX paths `rglob` enumerates (in arbitrary
filesystem order), which of them are regular files, and the two fallible
reads of each file (`read_text(encoding='utf-8')` strict, and the
`errors='replace'` retry).  A read that raises is `none`. -/
structure LibDir where
  dirExists : Bool
  names : List (List Char)
  isFile : List Char → Bool
  readStrict : List Char → Option (List Char)
  readReplace : List Char → Option (List Char)

/-- The eligibility test of line 30: a regular file whose `Path.suffix` is
`.sl` or `.swz`. -/
def eligible (d : LibDir) (p : List Char) : Bool :=
  d.isFile p && (decide (pathSuffix p = slExt) || decide (pathSuffix p = swzExt))

/-- Python `sorted` over the enumerated paths: a sort by the lexicographic
order on path strings.  Since that order is linear (hence antisymmetric),
the sorted list is uniquely determined by the multiset of paths, so
insertion sort is an exact executable model. -/
def sortedNames (d : LibDir) : List (List Char) :=
  List.insertionSort (fun a b : List Char => a ≤ b) d.names

/-- The eligible files in traversal order (sorted, then filtered as in the
loop of lines 29-30). -/
def eligibleFiles (d : LibDir) : List (List Char) :=
  (sortedNames d).filter (eligible d)

/-- Reading one file (lines 32-35): strict decode first; on an exception,
retry with `errors='replace'`.  If the retry also raises, the exception
propagates (`none`). -/
def readFile (d : LibDir) (p : List Char) : Option (List Char) :=
  match d.readStrict p with
  | some data => some data
  | none => d.readReplace p

/-- The collection loop: build `(rel, data)` pairs in order; a read whose
retry also fails aborts the whole traversal. -/
def readPairs (d : LibDir) : List (List Char) → Option (List (List Char × List Char))
  | [] => some []
  | p :: ps =>
    match readFile d p with
    | none => none
    | some data => (readPairs d ps).map (fun rest => (p, data) :: rest)

/-- `collect_files` (lines 25-37): empty when the root does not exist,
otherwise the `(relative-path, content)` pairs of eligible files in sorted
order; `none` models an uncaught exception aborting the run. -/
def collect_files (d : LibDir) : Option (List (List Char × List Char)) :=
  if d.dirExists then readPairs d (eligibleFiles d) else some []

/-- The table rows emitted for one collected pair (lines 55-61): one row
keyed by the relative path, and, when the path ends in `.sl` or `.swz`, two
alias rows (extension stripped, and `swazi:`-prefixed), all three carrying
the single escaped rendering of the content. -/
def rowsFor (rel data : List Char) : List (List Char × List Char) :=
  let esc := cpp_escape data
  (rel, esc) ::
    (if slExt <:+ rel ∨ swzExt <:+ rel then
      [(noext rel, esc), (swaziTag ++ noext rel, esc)]
    else [])

/-- All rows of the emitted initializer list, in emission order. -/
def tableRows (pairs : List (List Char × List Char)) : List (List Char × List Char) :=
  pairs.flatMap (fun pr => rowsFor pr.1 pr.2)

/-- The text of one emitted row: `    { "key", "value" },` followed by a
newline; the key is inserted verbatim, the value slot receives the escaped
content. -/
def renderRow (row : List Char × List Char) : List Char :=
  String.toList "    \x7b \"" ++ row.1 ++ String.toList "\", \"" ++ row.2
    ++ String.toList "\" \x7d,\n"

/-- The fixed document text preceding the rows (lines 50-54). -/
def headerText : List Char :=
  String.toList "// GENERATED FILE - do not edit. Regenerate with scripts/embed_builtins.py\n"
    ++ String.toList "#include \"builtin_sl.h\"\n"
    ++ String.toList "#include <unordered_map>\n#include <string>\n#include <optional>\n\n"
    ++ String.toList "using namespace std;\n\n"
    ++ String.toList "static unordered_map<string,string> __embedded_modules = \x7b\n"

/-- The fixed document text following the rows (lines 62-70): the closing
brace and the two accessor function definitions. -/
def footerText : List Char :=
  String.toList "\x7d;\n\n"
    ++ String.toList "bool has_embedded_module(const std::string &spec) \x7b\n"
    ++ String.toList "    return __embedded_modules.find(spec) != __embedded_modules.end();\n"
    ++ String.toList "\x7d\n\n"
    ++ String.toList "std::optional<std::string> get_embedded_module_source(const std::string &spec) \x7b\n"
    ++ String.toList "    auto it = __embedded_modules.find(spec);\n"
    ++ String.toList "    if (it == __embedded_modules.end()) return std::nullopt;\n"
    ++ String.toList "    return it->second;\n"
    ++ String.toList "\x7d\n"

/-- `generate_content` (lines 48-71): header, one rendered line per table
row in emission order, footer. -/
def generate_content (pairs : List (List Char × List Char)) : List Char :=
  headerText ++ (tableRows pairs).flatMap renderRow ++ footerText

/-- Lookup semantics of the generated `__embedded_modules` map: a C++
`unordered_map` built from an initializer list inserts the elements in
order, and `insert` is a no-op for a key already present, so for duplicate
keys the FIRST occurrence in the list wins. -/
def get_embedded_module_source (rows : List (List Char × List Char))
    (spec : List Char) : Option (List Char) :=
  (rows.find? (fun row => row.1 == spec)).map Prod.snd

/-- Existence semantics of the generated `has_embedded_module`: whether
`find` hits the table. -/
def has_embedded_module (rows : List (List Char × List Char))
    (spec : List Char) : Bool :=
  (rows.find? (fun row => row.1 == spec)).isSome

/-- Injected fault model for the writer's OS interactions: whether reading
the pre-existing target raises, whether writing the temporary file raises,
whether `os.replace` raises, and whether the cleanup `os.unlink` raises. -/
structure WriteEnv where
  readFails : Bool
  tmpWriteFails : Bool
  replaceFails : Bool
  unlinkFails : Bool

/-- The write phase of `atomic_write_if_changed` (lines 86-99): `mkstemp`
creates a temporary file, the content is written to it, and `os.replace`
atomically renames it onto the target.  Result: the outcome (`Except.error`
models a propagated exception), the content at the target path, and whether
a temporary file is left behind in the target directory.  On failure the
`finally` block removes the temporary file, but a failing `os.unlink` is
swallowed (`except: pass`), leaving the temporary behind; on success the
rename has already consumed the temporary. -/
def writePhase (env : WriteEnv) (target : Option (List Char)) (content : List Char) :
    Except Unit Bool × Option (List Char) × Bool :=
  if env.tmpWriteFails then
    (Except.error (), target, env.unlinkFails)
  else if env.replaceFails then
    (Except.error (), target, env.unlinkFails)
  else
    (Except.ok true, some content, false)

/-- `atomic_write_if_changed` (lines 73-99): if the target exists, its
content is read back and compared (a raised read is swallowed and falls
through to writing); on byte equality nothing is written and `False` is
returned, otherwise the write phase runs. -/
def atomic_write_if_changed (env : WriteEnv) (target : Option (List Char))
    (content : List Char) : Except Unit Bool × Option (List Char) × Bool :=
  match target with
  | some existing =>
    if env.readFails = false ∧ existing = content then
      (Except.ok false, target, false)
    else writePhase env target content
  | none => writePhase env target content

/-- `main` (lines 101-116): collect, generate, write; both the written and
the unchanged outcome call `sys.exit(0)`.  An uncaught exception anywhere is
`Except.error`.  The payload is the changed-flag and the final target
content. -/
def mainRun (d : LibDir) (env : WriteEnv) (target : Option (List Char)) :
    Except Unit (Bool × Option (List Char)) :=
  match collect_files d with
  | none => Except.error ()
  | some pairs =>
    match atomic_write_if_changed env target (generate_content pairs) with
    | (Except.ok changed, t, _) => Except.ok (changed, t)
    | (Except.error _, _, _) => Except.error ()

/-- Process exit code of a run: 0 on success, 1 for an uncaught exception. -/
def exitCode (r : Except Unit (Bool × Option (List Char))) : Nat :=
  match r with
  | Except.ok _ => 0
  | Except.error _ => 1

theorem cpp_escape_nil : cpp_escape [] = [] := rfl

theorem cpp_escape_cons (c : Char) (s : List Char) :
    cpp_escape (c :: s) = escChar c ++ cpp_escape s := by
  by_cases h1 : c = '\\'
  · subst h1; simp [cpp_escape, repl, escChar]
  by_cases h2 : c = '"'
  · subst h2; simp [cpp_escape, repl, escChar, h1]
  by_cases h3 : c = '\r'
  · subst h3; simp [cpp_escape, repl, escChar, h1, h2]
  by_cases h4 : c = '\n'
  · subst h4; simp [cpp_escape, repl, escChar, h1, h2, h3]
  · simp [cpp_escape, repl, escChar, h1, h2, h3, h4]

theorem decodeLit_other (c : Char) (r : List Char) (h1 : c ≠ '\\') (h2 : c ≠ '"') :
    decodeLit (c :: r) = c :: decodeLit r := by
  match r with
  | [] => simp [decodeLit, h1, h2]
  | c2 :: r2 => simp [decodeLit, h1, h2]

/-- C2: decoding the escaped rendering under the host string-literal rules
recovers the original content with every carriage return removed. -/
theorem decodeLit_cpp_escape (s : List Char) :
    decodeLit (cpp_escape s) = s.filter (fun c => c != '\r') := by
  induction s with
  | nil => rfl
  | cons c s ih =>
    rw [cpp_escape_cons]
    by_cases h1 : c = '\\'
    · subst h1; simp [escChar, decodeLit, ih]
    by_cases h2 : c = '"'
    · subst h2; simp [escChar, decodeLit, ih, h1]
    by_cases h3 : c = '\r'
    · subst h3; simp [escChar, decodeLit, ih, h1, h2]
    by_cases h4 : c = '\n'
    · subst h4; simp [escChar, decodeLit, ih, h1, h2, h3]
    · rw [show escChar c = [c] by simp [escChar, h1, h2, h3, h4]]
      rw [List.singleton_append, decodeLit_other c _ h1 h2, ih]
      simp [List.filter_cons, h3]

theorem pathName_isSuffix (p : List Char) : pathName p <:+ p := by
  have h : p.reverse.takeWhile (fun c => c != '/') <+: p.reverse :=
    List.takeWhile_prefix _
  have h2 : (p.reverse.takeWhile (fun c => c != '/')).reverse <:+ p.reverse.reverse :=
    List.reverse_suffix.mpr h
  simpa [pathName] using h2

theorem pathSuffix_isSuffix (p : List Char) (h : pathSuffix p ≠ []) :
    pathSuffix p <:+ p := by
  unfold pathSuffix at h ⊢
  cases hfd : rfindDot (pathName p) with
  | none => simp [hfd] at h
  | some i =>
    simp only [hfd]
    by_cases hc : 0 < i ∧ i < (pathName p).length - 1
    · simp only [hc, if_pos]
      exact (List.drop_suffix i (pathName p)).trans (pathName_isSuffix p)
    · simp [hfd, hc] at h

theorem eligible_ends (d : LibDir) (p : List Char) (h : eligible d p = true) :
    slExt <:+ p ∨ swzExt <:+ p := by
  have h2 : pathSuffix p = slExt ∨ pathSuffix p = swzExt := by
    simp [eligible] at h
    tauto
  rcases h2 with h2 | h2
  · left; rw [← h2]; exact pathSuffix_isSuffix p (by rw [h2]; simp [slExt])
  · right; rw [← h2]; exact pathSuffix_isSuffix p (by rw [h2]; simp [swzExt])

theorem readPairs_mem {d : LibDir} {ps : List (List Char)}
    {pairs : List (List Char × List Char)} (h : readPairs d ps = some pairs)
    {rel data : List Char} (hm : (rel, data) ∈ pairs) :
    rel ∈ ps ∧ readFile d rel = some data := by
  induction ps generalizing pairs with
  | nil =>
    simp only [readPairs, Option.some.injEq] at h
    subst h
    simp at hm
  | cons p ps ih =>
    simp only [readPairs] at h
    cases hr : readFile d p with
    | none => rw [hr] at h; simp at h
    | some data0 =>
      rw [hr] at h
      cases hrest : readPairs d ps with
      | none => rw [hrest] at h; simp at h
      | some rest =>
        rw [hrest] at h
        simp at h
        subst h
        rcases List.mem_cons.mp hm with hm | hm
        · simp only [Prod.mk.injEq] at hm
          obtain ⟨h1, h2⟩ := hm
          subst h1; subst h2
          exact ⟨List.mem_cons_self _ _, hr⟩
        · rcases ih hrest hm with ⟨hmem, hread⟩
          exact ⟨List.mem_cons_of_mem _ hmem, hread⟩

theorem collect_files_mem {d : LibDir} {pairs : List (List Char × List Char)}
    (h : collect_files d = some pairs) {rel data : List Char}
    (hm : (rel, data) ∈ pairs) :
    eligible d rel = true ∧ readFile d rel = some data := by
  unfold collect_files at h
  by_cases hd : d.dirExists
  · rw [if_pos hd] at h
    rcases readPairs_mem h hm with ⟨hmem, hread⟩
    refine ⟨?_, hread⟩
    exact (List.mem_filter.mp hmem).2
  · rw [if_neg hd] at h
    simp only [Option.some.injEq] at h
    subst h
    simp at hm

/-- C1: every collected input file produces exactly three table rows — one
keyed by the relative path, one by the extension-stripped path, one by the
`swazi:`-prefixed alias — all carrying the same single escaped rendering of
the file's content. -/
theorem collected_file_three_rows (d : LibDir) (pairs : List (List Char × List Char))
    (hc : collect_files d = some pairs) (rel data : List Char)
    (hm : (rel, data) ∈ pairs) :
    rowsFor rel data =
      [(rel, cpp_escape data), (noext rel, cpp_escape data),
        (swaziTag ++ noext rel, cpp_escape data)] ∧
    (rowsFor rel data).length = 3 := by
  have he : eligible d rel = true := (collect_files_mem hc hm).1
  have hends : slExt <:+ rel ∨ swzExt <:+ rel := eligible_ends d rel he
  constructor
  · simp [rowsFor, if_pos hends]
  · simp [rowsFor, if_pos hends]

/-- Witness for C1 at a concrete one-file tree. -/
theorem collected_file_three_rows_witness :
    rowsFor (String.toList "std.sl") (String.toList "x") =
      [(String.toList "std.sl", cpp_escape (String.toList "x")),
        (noext (String.toList "std.sl"), cpp_escape (String.toList "x")),
        (swaziTag ++ noext (String.toList "std.sl"), cpp_escape (String.toList "x"))] ∧
    (rowsFor (String.toList "std.sl") (String.toList "x")).length = 3 :=
  collected_file_three_rows
    ⟨true, [String.toList "std.sl"], fun _ => true,
      fun _ => some (String.toList "x"), fun _ => none⟩
    [(String.toList "std.sl", String.toList "x")]
    (by decide) (String.toList "std.sl") (String.toList "x") (by decide)

theorem awic_eq (env : WriteEnv) (target : Option (List Char)) (content : List Char)
    (h1 : env.tmpWriteFails = false) (h2 : env.replaceFails = false) :
    atomic_write_if_changed env target content =
      if env.readFails = false ∧ target = some content then
        (Except.ok false, target, false)
      else (Except.ok true, some content, false) := by
  cases target with
  | none => simp [atomic_write_if_changed, writePhase, h1, h2]
  | some existing =>
    by_cases hr : env.readFails = false ∧ existing = content
    · simp [atomic_write_if_changed, writePhase, hr, h1, h2, hr.2]
    · have hr' : ¬(env.readFails = false ∧ some existing = some content) := by
        simpa using hr
      simp [atomic_write_if_changed, writePhase, hr, hr', h1, h2]

/-- C3: `atomic_write_if_changed` writes exactly when no readable
pre-existing file has byte-identical content: on a readable identical
target it returns `False` and leaves everything untouched; when the content
differs, the target is absent, or reading it fails, it writes the new
content and returns `True`. -/
theorem write_iff_changed (env : WriteEnv) (target : Option (List Char))
    (content : List Char)
    (h1 : env.tmpWriteFails = false) (h2 : env.replaceFails = false) :
    atomic_write_if_changed env target content =
      if env.readFails = false ∧ target = some content then
        (Except.ok false, target, false)
      else (Except.ok true, some content, false) :=
  awic_eq env target content h1 h2

/-- Witness for C3: absent target, healthy environment — the writer writes
and reports `True`. -/
theorem write_iff_changed_witness :
    atomic_write_if_changed ⟨false, false, false, false⟩ none (String.toList "x") =
      if (⟨false, false, false, false⟩ : WriteEnv).readFails = false ∧
          (none : Option (List Char)) = some (String.toList "x") then
        (Except.ok false, none, false)
      else (Except.ok true, some (String.toList "x"), false) :=
  write_iff_changed ⟨false, false, false, false⟩ none (String.toList "x") rfl rfl

/-- C4 counterexample: when the atomic replace raises and the cleanup
`os.unlink` also raises (which the code swallows with `except: pass`), the
exception propagates with a temporary file still present in the target
directory — the claim that no temporary file ever remains is false. -/
theorem write_failure_temp_left :
    (atomic_write_if_changed ⟨false, false, true, true⟩ none (String.toList "x")).1
        = Except.error () ∧
    (atomic_write_if_changed ⟨false, false, true, true⟩ none (String.toList "x")).2.2
        = true :=
  ⟨rfl, rfl⟩

/-- C4 (amended): if the write phase fails, the propagated-failure result
leaves the target path with exactly its pre-call content (or still absent),
and the temporary file is removed provided the cleanup unlink itself
succeeds (a failing unlink is swallowed and may leave the temporary
behind). -/
theorem write_failure_target_untouched (env : WriteEnv)
    (target : Option (List Char)) (content : List Char)
    (h : (atomic_write_if_changed env target content).1 = Except.error ()) :
    (atomic_write_if_changed env target content).2.1 = target ∧
    (env.unlinkFails = false →
      (atomic_write_if_changed env target content).2.2 = false) := by
  cases target with
  | none =>
    by_cases ht : env.tmpWriteFails <;> by_cases hp : env.replaceFails <;>
      simp_all [atomic_write_if_changed, writePhase]
  | some existing =>
    by_cases hrf : env.readFails <;> by_cases hec : existing = content <;>
      by_cases ht : env.tmpWriteFails <;> by_cases hp : env.replaceFails <;>
        simp_all [atomic_write_if_changed, writePhase]

/-- Witness for C4 (amended): temp-file write fails, unlink succeeds. -/
theorem write_failure_target_untouched_witness :
    (atomic_write_if_changed ⟨false, true, false, false⟩ none (String.toList "x")).2.1
        = none ∧
    ((⟨false, true, false, false⟩ : WriteEnv).unlinkFails = false →
      (atomic_write_if_changed ⟨false, true, false, false⟩ none
          (String.toList "x")).2.2 = false) :=
  write_failure_target_untouched ⟨false, true, false, false⟩ none
    (String.toList "x") rfl

/-- C6: running the generator twice over an unchanged input tree leaves the
target holding the first run's document, and the second run reports
unchanged (`False`) without writing. -/
theorem second_run_unchanged (d : LibDir) (env₁ env₂ : WriteEnv)
    (t₀ : Option (List Char)) (pairs : List (List Char × List Char))
    (_hc : collect_files d = some pairs)
    (h1 : env₁.tmpWriteFails = false) (h2 : env₁.replaceFails = false)
    (h3 : env₂.readFails = false) :
    (atomic_write_if_changed env₁ t₀ (generate_content pairs)).2.1
        = some (generate_content pairs) ∧
    atomic_write_if_changed env₂
        (atomic_write_if_changed env₁ t₀ (generate_content pairs)).2.1
        (generate_content pairs)
      = (Except.ok false, some (generate_content pairs), false) := by
  have hfst : (atomic_write_if_changed env₁ t₀ (generate_content pairs)).2.1
      = some (generate_content pairs) := by
    rw [awic_eq env₁ t₀ (generate_content pairs) h1 h2]
    by_cases hskip : env₁.readFails = false ∧ t₀ = some (generate_content pairs)
    · simp [hskip, hskip.2]
    · simp [hskip]
  refine ⟨hfst, ?_⟩
  rw [hfst]
  simp [atomic_write_if_changed, h3]

/-- Witness for C6: one-file tree, healthy first run; the second run's
write phase is even made faulty to show it is never entered. -/
theorem second_run_unchanged_witness :
    (atomic_write_if_changed ⟨false, false, false, false⟩ none
        (generate_content [(String.toList "a.sl", String.toList "x")])).2.1
      = some (generate_content [(String.toList "a.sl", String.toList "x")]) ∧
    atomic_write_if_changed ⟨false, true, true, true⟩
        (atomic_write_if_changed ⟨false, false, false, false⟩ none
          (generate_content [(String.toList "a.sl", String.toList "x")])).2.1
        (generate_content [(String.toList "a.sl", String.toList "x")])
      = (Except.ok false,
          some (generate_content [(String.toList "a.sl", String.toList "x")]),
          false) :=
  second_run_unchanged
    ⟨true, [String.toList "a.sl"], fun _ => true,
      fun _ => some (String.toList "x"), fun _ => none⟩
    ⟨false, false, false, false⟩ ⟨false, true, true, true⟩ none
    [(String.toList "a.sl", String.toList "x")] (by decide) rfl rfl rfl

/-- C8: a missing input root yields an empty collection (not an error), a
document whose table is empty with both accessors still defined (existence
always false, lookup always absent), and process exit code 0. -/
theorem missing_root_empty_run (d : LibDir) (env : WriteEnv)
    (t₀ : Option (List Char)) (hd : d.dirExists = false)
    (h1 : env.tmpWriteFails = false) (h2 : env.replaceFails = false) :
    collect_files d = some [] ∧
    tableRows [] = [] ∧
    (∀ k, has_embedded_module (tableRows []) k = false) ∧
    (∀ k, get_embedded_module_source (tableRows []) k = none) ∧
    exitCode (mainRun d env t₀) = 0 := by
  have hcoll : collect_files d = some [] := by simp [collect_files, hd]
  refine ⟨hcoll, rfl, fun k => rfl, fun k => rfl, ?_⟩
  simp only [mainRun, hcoll]
  rw [awic_eq env t₀ (generate_content []) h1 h2]
  by_cases hskip : env.readFails = false ∧ t₀ = some (generate_content [])
  · simp [hskip, exitCode]
  · simp [hskip, exitCode]

/-- Witness for C8: empty tree, healthy environment. -/
theorem missing_root_empty_run_witness :
    collect_files ⟨false, [], fun _ => false, fun _ => none, fun _ => none⟩
        = some [] ∧
    tableRows [] = [] ∧
    (∀ k, has_embedded_module (tableRows []) k = false) ∧
    (∀ k, get_embedded_module_source (tableRows []) k = none) ∧
    exitCode (mainRun ⟨false, [], fun _ => false, fun _ => none, fun _ => none⟩
        ⟨false, false, false, false⟩ none) = 0 :=
  missing_root_empty_run ⟨false, [], fun _ => false, fun _ => none, fun _ => none⟩
    ⟨false, false, false, false⟩ none rfl rfl rfl

/-- C7 counterexample: an eligible file whose strict read raises and whose
`errors='replace'` retry also raises (e.g. a persistent permission error)
aborts the whole run — so it is not true that every read failure is
recovered locally. -/
theorem unreadable_file_aborts :
    eligibleFiles ⟨true, [String.toList "a.sl"], fun _ => true, fun _ => none,
        fun _ => none⟩ = [String.toList "a.sl"] ∧
    collect_files ⟨true, [String.toList "a.sl"], fun _ => true, fun _ => none,
        fun _ => none⟩ = none := by
  decide

theorem readPairs_all_some (d : LibDir) (ps : List (List Char))
    (h : ∀ p ∈ ps, (readFile d p).isSome) :
    readPairs d ps = some (ps.map (fun p => (p, (readFile d p).getD []))) := by
  induction ps with
  | nil => rfl
  | cons p ps ih =>
    obtain ⟨data, hdata⟩ :=
      Option.isSome_iff_exists.mp (h p (List.mem_cons_self p ps))
    simp only [readPairs, hdata,
      ih (fun q hq => h q (List.mem_cons_of_mem p hq))]
    simp [hdata]

/-- C7 (amended): a strict-decode failure is recovered by the replacement
read and never aborts the run nor skips the file; whenever every eligible
file's strict or replacement read succeeds, the run collects exactly one
`(key, content)` pair per eligible file, in order.  (If the replacement
read itself also raises, the exception propagates and aborts the run.) -/
theorem eligible_files_all_contribute (d : LibDir) (hd : d.dirExists = true)
    (h : ∀ p ∈ eligibleFiles d, (readFile d p).isSome) :
    collect_files d =
      some ((eligibleFiles d).map (fun p => (p, (readFile d p).getD []))) := by
  simp [collect_files, hd, readPairs_all_some d (eligibleFiles d) h]

/-- Witness for C7 (amended): the strict read fails, the replacement read
succeeds — the file still contributes its pair. -/
theorem eligible_files_all_contribute_witness :
    collect_files ⟨true, [String.toList "a.sl"], fun _ => true, fun _ => none,
        fun _ => some (String.toList "r")⟩
      = some ((eligibleFiles ⟨true, [String.toList "a.sl"], fun _ => true,
          fun _ => none, fun _ => some (String.toList "r")⟩).map
        (fun p => (p, (readFile ⟨true, [String.toList "a.sl"], fun _ => true,
          fun _ => none, fun _ => some (String.toList "r")⟩ p).getD []))) :=
  eligible_files_all_contribute
    ⟨true, [String.toList "a.sl"], fun _ => true, fun _ => none,
      fun _ => some (String.toList "r")⟩ rfl (by decide)

/-- C9 counterexample: `a.sl` and `a.swz` both derive the alias key `a`;
the generated map's lookup returns the EARLIER file's (escaped) content,
because a C++ `unordered_map` initializer list keeps the first occurrence of
a duplicate key — so last-write-wins is false. -/
theorem duplicate_key_not_last_wins :
    get_embedded_module_source
        (tableRows [(String.toList "a.sl", String.toList "x"),
          (String.toList "a.swz", String.toList "y")]) (String.toList "a")
      = some (cpp_escape (String.toList "x")) ∧
    cpp_escape (String.toList "x") ≠ cpp_escape (String.toList "y") := by
  decide

theorem find?_first_key (rs₁ rs₂ : List (List Char × List Char))
    (k v : List Char) (hfirst : ∀ r ∈ rs₁, r.1 ≠ k) :
    (rs₁ ++ (k, v) :: rs₂).find? (fun row => row.1 == k) = some (k, v) := by
  induction rs₁ with
  | nil => simp
  | cons r rs ih =>
    rw [List.cons_append, List.find?_cons_of_neg _ (by
      simp [hfirst r (List.mem_cons_self r rs)])]
    exact ih (fun q hq => hfirst q (List.mem_cons_of_mem r hq))

/-- C9 (amended): duplicate derived keys are silently resolved
first-write-wins in discovery order, not an error: the lookup returns the
value of the first emitted row bearing the key; later rows with the same
key are ignored. -/
theorem duplicate_key_first_wins (pairs rs₁ rs₂ : List (List Char × List Char))
    (k v : List Char) (h : tableRows pairs = rs₁ ++ (k, v) :: rs₂)
    (hfirst : ∀ r ∈ rs₁, r.1 ≠ k) :
    get_embedded_module_source (tableRows pairs) k = some v := by
  rw [get_embedded_module_source, h, find?_first_key rs₁ rs₂ k v hfirst]
  rfl

/-- Witness for C9 (amended) on the colliding `a.sl`/`a.swz` table. -/
theorem duplicate_key_first_wins_witness :
    get_embedded_module_source
        (tableRows [(String.toList "a.sl", String.toList "x"),
          (String.toList "a.swz", String.toList "y")]) (String.toList "a")
      = some (cpp_escape (String.toList "x")) :=
  duplicate_key_first_wins
    [(String.toList "a.sl", String.toList "x"),
      (String.toList "a.swz", String.toList "y")]
    [(String.toList "a.sl", cpp_escape (String.toList "x"))]
    [(swaziTag ++ String.toList "a", cpp_escape (String.toList "x")),
      (String.toList "a.swz", cpp_escape (String.toList "y")),
      (String.toList "a", cpp_escape (String.toList "y")),
      (swaziTag ++ String.toList "a", cpp_escape (String.toList "y"))]
    (String.toList "a") (cpp_escape (String.toList "x"))
    (by decide) (by decide)

/-- C10: escaping is applied only to content, never to keys: the derived
keys appear verbatim in the key slot of their rendered rows (so a path
containing a double quote or backslash is embedded unescaped), while every
row's value slot holds the escaped content. -/
theorem keys_inserted_verbatim (rel data : List Char)
    (h : slExt <:+ rel ∨ swzExt <:+ rel) :
    (rowsFor rel data).map Prod.fst = [rel, noext rel, swaziTag ++ noext rel] ∧
    ∀ row ∈ rowsFor rel data,
      renderRow row = String.toList "    \x7b \"" ++ row.1
        ++ String.toList "\", \"" ++ cpp_escape data
        ++ String.toList "\" \x7d,\n" := by
  constructor
  · simp [rowsFor, if_pos h]
  · intro row hrow
    have h2 : row.2 = cpp_escape data := by
      simp [rowsFor, if_pos h] at hrow
      rcases hrow with h | h | h <;> simp [h]
    simp [renderRow, h2]

/-- Witness for C10 at a path containing both a double quote and a
backslash. -/
theorem keys_inserted_verbatim_witness :
    (rowsFor (String.toList "a\"\\b.sl") (String.toList "c")).map Prod.fst
        = [String.toList "a\"\\b.sl", noext (String.toList "a\"\\b.sl"),
            swaziTag ++ noext (String.toList "a\"\\b.sl")] ∧
    ∀ row ∈ rowsFor (String.toList "a\"\\b.sl") (String.toList "c"),
      renderRow row = String.toList "    \x7b \"" ++ row.1
        ++ String.toList "\", \"" ++ cpp_escape (String.toList "c")
        ++ String.toList "\" \x7d,\n" :=
  keys_inserted_verbatim (String.toList "a\"\\b.sl") (String.toList "c")
    (by decide)

theorem readPairs_congr (d : LibDir) (names' : List (List Char))
    (ps : List (List Char)) :
    readPairs { d with names := names' } ps = readPairs d ps := by
  induction ps with
  | nil => rfl
  | cons p ps ih => simp only [readPairs, readFile, ih]

/-- C5: the emitted document is a deterministic pure function of the input
tree: permuting the order in which the filesystem enumerates the same paths
changes neither the collected pairs nor a single byte of the generated
document, because the collector sorts lexicographically. -/
theorem run_deterministic (d : LibDir) (names' : List (List Char))
    (hp : d.names.Perm names') :
    collect_files { d with names := names' } = collect_files d ∧
    (collect_files { d with names := names' }).map generate_content
      = (collect_files d).map generate_content := by
  have hsort : sortedNames { d with names := names' } = sortedNames d :=
    List.eq_of_perm_of_sorted
      (((List.perm_insertionSort _ _).trans hp.symm).trans
        (List.perm_insertionSort _ _).symm)
      (List.sorted_insertionSort _ _) (List.sorted_insertionSort _ _)
  have hcoll : collect_files { d with names := names' } = collect_files d := by
    unfold collect_files eligibleFiles
    rw [hsort, readPairs_congr]
    rfl
  exact ⟨hcoll, by rw [hcoll]⟩

/-- Witness for C5: the same two files enumerated in the two possible
orders. -/
theorem run_deterministic_witness :
    collect_files ⟨true, [String.toList "a.sl", String.toList "b.sl"],
        fun _ => true, fun p => some p, fun _ => none⟩
      = collect_files ⟨true, [String.toList "b.sl", String.toList "a.sl"],
        fun _ => true, fun p => some p, fun _ => none⟩ ∧
    (collect_files ⟨true, [String.toList "a.sl", String.toList "b.sl"],
        fun _ => true, fun p => some p, fun _ => none⟩).map generate_content
      = (collect_files ⟨true, [String.toList "b.sl", String.toList "a.sl"],
        fun _ => true, fun p => some p, fun _ => none⟩).map generate_content :=
  run_deterministic
    ⟨true, [String.toList "b.sl", String.toList "a.sl"],
      fun _ => true, fun p => some p, fun _ => none⟩
    [String.toList "a.sl", String.toList "b.sl"] (by decide)

end EmbedBuiltins
